import Mathlib

/-!
Verification development for the JsxJS dual-mode rendering engine.

The definitions below are shallow embeddings of the TypeScript sources:
  - `src/server/render.ts`   (createElement, compress, renderToStringFragments,
                              renderToString)
  - `src/server/attribute.ts` (AttributeRender.render_static and the handler
                              lookup shared with render_dom)
  - `src/server/utils.ts`    (isValidNode, isPrimitiveNode, isVoidElement)
  - `src/client/native.ts`   (hook storage, useState setter, useEffect,
                              __cleanupComponent, __getComponentState,
                              reactiveComponent, matchDynamicRoute)

JavaScript strings are modelled as Lean `String`/`List Char`; JS numbers are
modelled as `Int` (all inputs of interest are integral); machine-level float
formatting is out of scope.  Asynchronous values are modelled as already
resolved: the sources await them sequentially, so resolution order equals
declaration order and a pure sequential model is observationally equal.
-/

/-! ## JavaScript string primitives -/

/-- The JS `\s` character class (ECMA WhiteSpace ∪ LineTerminator), as used by
the regexes in `compress` and by `String.prototype.trim`. -/
def jsWs (c : Char) : Bool :=
  c == ' ' || c == '\t' || c == '\n' || c == '\r' ||
  c == Char.ofNat 11 || c == Char.ofNat 12 ||
  c == Char.ofNat 0xA0 || c == Char.ofNat 0x1680 ||
  (0x2000 ≤ c.toNat && c.toNat ≤ 0x200A) ||
  c == Char.ofNat 0x2028 || c == Char.ofNat 0x2029 ||
  c == Char.ofNat 0x202F || c == Char.ofNat 0x205F ||
  c == Char.ofNat 0x3000 || c == Char.ofNat 0xFEFF

/-- Anchored match: `matchesAt pat text` is true when `pat` is an initial segment of `text`
(the anchored test a JS regex performs at one scan position). -/
def matchesAt : List Char → List Char → Bool
  | [], _ => true
  | _ :: _, [] => false
  | p :: ps, c :: cs => p == c && matchesAt ps cs

/-- JS `String.prototype.startsWith`, over the character lists (the core library
versions are byte-position based and do not reduce inside proofs). -/
def strStartsWith (s pre : String) : Bool := matchesAt pre.data s.data

/-- JS `String.prototype.endsWith`. -/
def strEndsWith (s post : String) : Bool := matchesAt post.data.reverse s.data.reverse

/-- JS `str.slice(0, -n)`. -/
def strDropRight (s : String) (n : Nat) : String :=
  String.mk (s.data.take (s.data.length - n))

/-- JS `str.slice(n)`. -/
def strDrop (s : String) (n : Nat) : String := String.mk (s.data.drop n)

/-- JS `String.prototype.split` with a single-character separator. -/
def splitOnCharGo (sep : Char) : List Char → List Char → List String
  | acc, [] => [String.mk acc]
  | acc, c :: cs =>
    if c == sep then String.mk acc :: splitOnCharGo sep [] cs
    else splitOnCharGo sep (acc ++ [c]) cs

def splitOnChar (sep : Char) (s : String) : List String := splitOnCharGo sep [] s.data

/-- UTF-8 encoding of one scalar value, as `Buffer.from(string)` produces. -/
def utf8Encode (c : Char) : List Nat :=
  let n := c.toNat
  if n < 0x80 then [n]
  else if n < 0x800 then [0xC0 + n / 64, 0x80 + n % 64]
  else if n < 0x10000 then [0xE0 + n / 4096, 0x80 + n / 64 % 64, 0x80 + n % 64]
  else [0xF0 + n / 262144, 0x80 + n / 4096 % 64, 0x80 + n / 64 % 64, 0x80 + n % 64]

/-- UTF-8 decoding, as `Buffer.prototype.toString('utf8')` performs; malformed
sequences decode to U+FFFD, which never happens on `utf8Encode` output. -/
def utf8Decode : List Nat → List Char
  | [] => []
  | b :: bs =>
    if b < 0x80 then Char.ofNat b :: utf8Decode bs
    else if b < 0xC0 then Char.ofNat 0xFFFD :: utf8Decode bs
    else if b < 0xE0 then
      match bs with
      | b1 :: rest => Char.ofNat ((b - 0xC0) * 64 + (b1 - 0x80)) :: utf8Decode rest
      | [] => [Char.ofNat 0xFFFD]
    else if b < 0xF0 then
      match bs with
      | b1 :: b2 :: rest =>
        Char.ofNat (((b - 0xE0) * 64 + (b1 - 0x80)) * 64 + (b2 - 0x80)) :: utf8Decode rest
      | _ => [Char.ofNat 0xFFFD]
    else
      match bs with
      | b1 :: b2 :: b3 :: rest =>
        Char.ofNat ((((b - 0xF0) * 64 + (b1 - 0x80)) * 64 + (b2 - 0x80)) * 64 + (b3 - 0x80)) :: utf8Decode rest
      | _ => [Char.ofNat 0xFFFD]

/-- The standard base64 alphabet used by `Buffer.prototype.toString('base64')`. -/
def b64Alphabet : List Char :=
  "ABCDEFGHIJKLMNOPQRSTUVWXYZabcdefghijklmnopqrstuvwxyz0123456789+/".data

def b64Char (n : Nat) : Char := b64Alphabet.getD n 'A'

def b64Index (c : Char) : Nat := b64Alphabet.indexOf c

/-- Base64 encoding with `=` padding, as `Buffer.prototype.toString('base64')`. -/
def base64Encode : List Nat → List Char
  | [] => []
  | [a] => [b64Char (a / 4), b64Char (a % 4 * 16), '=', '=']
  | [a, b] =>
    let n := a * 256 + b
    [b64Char (n / 1024), b64Char (n / 16 % 64), b64Char (n % 16 * 4), '=']
  | a :: b :: c :: rest =>
    let n := a * 65536 + b * 256 + c
    b64Char (n / 262144) :: b64Char (n / 4096 % 64) :: b64Char (n / 64 % 64) ::
      b64Char (n % 64) :: base64Encode rest

/-- Base64 decoding, as `Buffer.from(text, 'base64')`; only ever applied to
`base64Encode` output by the compaction pass. -/
def base64Decode : List Char → List Nat
  | c1 :: c2 :: c3 :: c4 :: rest =>
    if c3 == '=' then
      [(b64Index c1 * 64 + b64Index c2) / 16]
    else if c4 == '=' then
      let n := (b64Index c1 * 64 + b64Index c2) * 64 + b64Index c3
      [n / 1024, n / 4 % 256]
    else
      let n := ((b64Index c1 * 64 + b64Index c2) * 64 + b64Index c3) * 64 + b64Index c4
      n / 65536 :: n / 256 % 256 :: n % 256 :: base64Decode rest
  | _ => []

/-! ## The compaction pass (`compress` in `src/server/render.ts`)

`compress` pipes the input through the following stages, mirroring the chained
`.replace` calls of the source: protect string/template literals behind
`%%%STRING<base64>%%%` placeholders, strip `//`, `/* */` and `<!-- -->`
comments, restore the literals, then collapse whitespace runs, the whitespace
between `>` and `<`, and the whitespace before `/>`, and finally trim. -/

/-- One scan attempt of the literal regex `q([^q\\]|\\.)*q` starting right
after an opening quote: returns the matched characters (closing quote
included) and the remaining text, or `none` when the literal is unterminated
(a backslash before a line terminator or the end of input). -/
def matchLiteral (q : Char) : List Char → Option (List Char × List Char)
  | [] => none
  | c :: cs =>
    if c == q then some ([c], cs)
    else if c == '\\' then
      match cs with
      | [] => none
      | d :: ds =>
        if d == '\n' || d == '\r' then none
        else
          match matchLiteral q ds with
          | some (m, r) => some (c :: d :: m, r)
          | none => none
    else
      match matchLiteral q cs with
      | some (m, r) => some (c :: m, r)
      | none => none

/-- The three literal quote characters of the protect regex. -/
def isQuoteChar (c : Char) : Bool :=
  c == '"' || c == Char.ofNat 39 || c == Char.ofNat 96

def placeholderOpen : List Char := "%%%STRING".data

/-- The placeholder substituted for a protected literal:
`%%%STRING` + base64(utf8(match)) + `%%%`. -/
def placeholderFor (lit : List Char) : List Char :=
  placeholderOpen ++ base64Encode (lit.flatMap utf8Encode) ++ "%%%".data

/-- Stage 1 of `compress`: replace every string/template literal with its
placeholder.  An unterminated literal does not match; the scan then resumes
at the next character, as the regex engine does.  The scan is indexed by a
fuel parameter so that it is structurally recursive (and hence evaluable
inside proofs); every step consumes at least one input character, so fuel
equal to the input length never runs out. -/
def protectStringsGo : Nat → List Char → List Char
  | 0, cs => cs
  | _, [] => []
  | fuel + 1, c :: cs =>
    if isQuoteChar c then
      match matchLiteral c cs with
      | some (m, rest) => placeholderFor (c :: m) ++ protectStringsGo fuel rest
      | none => c :: protectStringsGo fuel cs
    else c :: protectStringsGo fuel cs

def protectStrings (cs : List Char) : List Char := protectStringsGo cs.length cs

/-- Drops characters up to (but not including) the next line terminator, as
`//.*$` consumes the rest of a line. -/
def dropLineRest : List Char → List Char
  | [] => []
  | c :: cs => if c == '\n' || c == '\r' then c :: cs else dropLineRest cs

/-- Stage 2 of `compress`: strip `//` single-line comments (`/\/\/.*$/gm`). -/
def removeLineCommentsGo : Nat → List Char → List Char
  | 0, cs => cs
  | _, [] => []
  | fuel + 1, c :: cs =>
    if matchesAt ['/', '/'] (c :: cs) then removeLineCommentsGo fuel (dropLineRest cs)
    else c :: removeLineCommentsGo fuel cs

def removeLineComments (cs : List Char) : List Char := removeLineCommentsGo cs.length cs

/-- Finds the first closing delimiter `cl` and returns the text after it. -/
def findClose (cl : List Char) : List Char → Option (List Char)
  | [] => none
  | c :: cs =>
    if matchesAt cl (c :: cs) then some ((c :: cs).drop cl.length)
    else findClose cl cs

/-- Stage 3/4 of `compress`: strip non-greedy delimited comments — used with
`/*` `*/` for block comments and `<!--` `-->` for HTML comments.  When no
closing delimiter exists the regex cannot match anywhere after the opener, so
the rest of the text passes through unchanged. -/
def removeDelimitedGo (op cl : List Char) : Nat → List Char → List Char
  | 0, cs => cs
  | _, [] => []
  | fuel + 1, c :: cs =>
    if matchesAt op (c :: cs) then
      match findClose cl ((c :: cs).drop op.length) with
      | some rest => removeDelimitedGo op cl fuel rest
      | none => c :: cs
    else c :: removeDelimitedGo op cl fuel cs

def removeDelimited (op cl : List Char) (cs : List Char) : List Char :=
  removeDelimitedGo op cl cs.length cs

/-- Stage 5 of `compress`: restore protected literals by decoding each
`%%%STRING<base64>%%%` placeholder. -/
def restoreStringsGo : Nat → List Char → List Char
  | 0, cs => cs
  | _, [] => []
  | fuel + 1, c :: cs =>
    if matchesAt placeholderOpen (c :: cs) then
      let after := (c :: cs).drop 9
      let captured := after.takeWhile (fun ch => ch != '%')
      let rest := after.dropWhile (fun ch => ch != '%')
      if !captured.isEmpty && matchesAt "%%%".data rest then
        utf8Decode (base64Decode captured) ++ restoreStringsGo fuel (rest.drop 3)
      else c :: restoreStringsGo fuel cs
    else c :: restoreStringsGo fuel cs

def restoreStrings (cs : List Char) : List Char := restoreStringsGo cs.length cs

/-- Stage 6 of `compress`: `\s+` → a single space. -/
def collapseWsGo : Nat → List Char → List Char
  | 0, cs => cs
  | _, [] => []
  | fuel + 1, c :: cs =>
    if jsWs c then ' ' :: collapseWsGo fuel (cs.dropWhile jsWs)
    else c :: collapseWsGo fuel cs

def collapseWs (cs : List Char) : List Char := collapseWsGo cs.length cs

/-- Stage 7 of `compress`: `>\s+<` → `><`. -/
def collapseBetweenTagsGo : Nat → List Char → List Char
  | 0, cs => cs
  | _, [] => []
  | fuel + 1, c :: cs =>
    if c == '>' then
      match cs.dropWhile jsWs with
      | '<' :: rest2 =>
        if !(cs.takeWhile jsWs).isEmpty then '>' :: '<' :: collapseBetweenTagsGo fuel rest2
        else c :: collapseBetweenTagsGo fuel cs
      | _ => c :: collapseBetweenTagsGo fuel cs
    else c :: collapseBetweenTagsGo fuel cs

def collapseBetweenTags (cs : List Char) : List Char := collapseBetweenTagsGo cs.length cs

/-- Stage 8 of `compress`: `\s?\/>` → `/>` (drops one whitespace character
immediately before a self-closing `/>`). -/
def collapseSelfCloseGo : Nat → List Char → List Char
  | 0, cs => cs
  | _, [] => []
  | fuel + 1, c :: cs =>
    if jsWs c && matchesAt ['/', '>'] cs then
      '/' :: '>' :: collapseSelfCloseGo fuel (cs.drop 2)
    else if c == '/' && matchesAt ['>'] cs then
      '/' :: '>' :: collapseSelfCloseGo fuel (cs.drop 1)
    else c :: collapseSelfCloseGo fuel cs

def collapseSelfClose (cs : List Char) : List Char := collapseSelfCloseGo cs.length cs

/-- JS `String.prototype.trim`. -/
def jsTrim (cs : List Char) : List Char :=
  ((cs.dropWhile jsWs).reverse.dropWhile jsWs).reverse

/-- Function `compress` from `src/server/render.ts` lines 76–97: protects literals,
strips `//`, `/* */` and HTML comments, restores the literals, and only then
normalizes whitespace (so the whitespace passes also run inside restored
literals). -/
def compress (code : String) : String :=
  String.mk (jsTrim (collapseSelfClose (collapseBetweenTags (collapseWs
    (restoreStrings (removeDelimited "<!--".data "-->".data
      (removeDelimited "/*".data "*/".data
        (removeLineComments (protectStrings code.data)))))))))

/-! ## The virtual node model (`src/server/types.ts`)

`DOMNode` is the tagged union of primitives, elements and arrays; pending
(promise) nodes are modelled as already resolved (§5 of the spec: resolution
is sequential/ordered, so a resolved tree renders identically).  Attribute
values carry the same primitives, opaque function values (`fn`), and node
lists (the `children` entry).  Function components cannot live inside the
tree: `createElement` invokes them during construction, which is the only
place the sources build trees. -/

mutual
inductive DOMNode : Type where
  | str (s : String)
  | num (n : Int)
  | bool (b : Bool)
  | null
  | undef
  | arr (xs : List DOMNode)
  | elem (type : String) (props : List (String × AttrValue)) (children : List DOMNode)

inductive AttrValue : Type where
  | str (s : String)
  | num (n : Int)
  | bool (b : Bool)
  | null
  | undef
  | fn (id : Nat)
  | nodes (xs : List DOMNode)
end

/-- Predicate `isPrimitiveNode` from `src/server/utils.ts`. -/
def isPrimitiveNode : DOMNode → Bool
  | .str _ | .num _ | .bool _ | .null | .undef => true
  | _ => false

/-- Predicate `isValidNode` from `src/server/utils.ts`: not null, undefined or `false`. -/
def isValidNode : DOMNode → Bool
  | .null | .undef | .bool false => false
  | _ => true

/-- Predicate `isVoidElement` from `src/server/utils.ts`. -/
def isVoidElement (type : String) : Bool :=
  ["area", "base", "br", "col", "embed", "hr", "img", "input", "link",
   "meta", "param", "source", "track", "wbr"].contains type

mutual
/-- JS `String(node)` coercion for tree values (used by the script-element
branch of `createElement` and by primitive rendering). -/
def jsStringOfNode : DOMNode → String
  | .str s => s
  | .num n => toString n
  | .bool b => if b then "true" else "false"
  | .null => "null"
  | .undef => "undefined"
  | .arr xs => String.intercalate "," (jsStringList xs)
  | .elem _ _ _ => "[object Object]"

/-- JS `Array.prototype.toString` element stringification: null/undefined
entries become the empty string. -/
def jsStringList : List DOMNode → List String
  | [] => []
  | .null :: xs => "" :: jsStringList xs
  | .undef :: xs => "" :: jsStringList xs
  | x :: xs => jsStringOfNode x :: jsStringList xs
end

/-- JS `String(value)` coercion for attribute values.  Function values
stringify to their source text in JS; that text is never inspected by the
modelled code paths, so it is represented by an opaque marker. -/
def attrValueToString : AttrValue → String
  | .str s => s
  | .num n => toString n
  | .bool b => if b then "true" else "false"
  | .null => "null"
  | .undef => "undefined"
  | .fn _ => "[function]"
  | .nodes xs => jsStringOfNode (.arr xs)

/-- JS truthiness of an attribute value (arrays and functions are truthy). -/
def truthy : AttrValue → Bool
  | .str s => s ≠ ""
  | .num n => n ≠ 0
  | .bool b => b
  | .null => false
  | .undef => false
  | .fn _ => true
  | .nodes _ => true

def truthyOpt : Option AttrValue → Bool
  | some v => truthy v
  | none => false

/-- Property read on a JS object modelled as an insertion-ordered assoc list. -/
def getProp (props : List (String × AttrValue)) (k : String) : Option AttrValue :=
  (props.find? (fun p => p.1 == k)).map (·.2)

/-- Property write: overwrites in place (keeping insertion position) or
appends, as JS object assignment does. -/
def setProp (props : List (String × AttrValue)) (k : String) (v : AttrValue) :
    List (String × AttrValue) :=
  if (props.find? (fun p => p.1 == k)).isSome then
    props.map (fun p => if p.1 == k then (k, v) else p)
  else props ++ [(k, v)]

/-- One JS `Array.prototype.flat()` step (default depth 1), as used by
`createElement` on its children. -/
def flattenOnce (children : List DOMNode) : List DOMNode :=
  children.flatMap fun c =>
    match c with
    | .arr xs => xs
    | c => [c]

/-- The element type argument of `createElement`: a tag name or a component
function.  A component either returns a node or throws, modelled by
`Except` with the thrown error's message. -/
inductive ElementType : Type where
  | tag (t : String)
  | comp (f : List (String × AttrValue) → Except String DOMNode)

/-- Test `type === 'script' && (props.client || props.loaded)` of
`createElement` line 44. -/
def scriptSpecialCase (t : String) (normalizedProps : List (String × AttrValue)) : Bool :=
  t == "script" &&
    (truthyOpt (getProp normalizedProps "client") ||
     truthyOpt (getProp normalizedProps "loaded"))

/-- Function `createElement` from `src/server/render.ts` lines 35–69: normalizes
children (flatten one level, drop invalid entries), stores them under the
`children` prop, special-cases `script` elements carrying `client`/`loaded`
(whose raw children are stringified; tree children are never functions in the
model, so `typeof child === 'function'` never holds), invokes function
components catching any thrown error into an inline comment node, and
otherwise builds a plain element node. -/
def createElement (type : ElementType) (props : Option (List (String × AttrValue)))
    (children : List DOMNode) : DOMNode :=
  let p0 := props.getD []
  let normalizedChildren := (flattenOnce children).filter isValidNode
  let normalizedProps := setProp p0 "children" (.nodes normalizedChildren)
  match type with
  | .tag t =>
    if scriptSpecialCase t normalizedProps then
      .elem t normalizedProps (children.map (fun c => .str (jsStringOfNode c)))
    else
      .elem t normalizedProps normalizedChildren
  | .comp f =>
    match f normalizedProps with
    | .ok node => node
    | .error msg => .str ("<!-- Error rendering component: " ++ msg ++ " -->")

/-! ## The attribute handler registry (`src/server/attribute.ts`) -/

/-- The result record a static strategy returns (`html?`, `lockchildren?`,
`scripts?`), extended with the attribute map after any mutation the handler
performed on it (the `client` handler deletes its own key, which later
handler invocations observe because the loop is sequential). -/
structure StaticHandlerResult where
  html : Option String
  lockchildren : Bool
  scripts : List DOMNode
  attrsAfter : List (String × AttrValue)

/-- A registered attribute handler.  `hid` models JS object identity.
`hasStatic` models the `handler.static` presence check. -/
structure AttributeHandler where
  hid : Nat
  key : String
  hasStatic : Bool
  staticFn : String → String → AttrValue → List (String × AttrValue) → StaticHandlerResult

/-- The handler lookup of `AttributeRender.render_static` (lines 105–109) and
`AttributeRender.render_dom` (lines 198–202), which share this predicate
verbatim: the first registered handler whose key equals the attribute key or
whose `prefix*` wildcard covers it. -/
def findHandler (handlers : List AttributeHandler) (key : String) : Option AttributeHandler :=
  handlers.find? fun h =>
    h.key == key || (strEndsWith h.key "*" && strStartsWith key (strDropRight h.key 1))

/-- Replaces `"` by `&quot;`, as the default attribute serialization does. -/
def escapeQuotes (s : String) : String :=
  String.mk (s.data.flatMap fun c => if c == '"' then "&quot;".data else [c])

structure StaticRenderResult where
  attributes : String
  scripts : List DOMNode
  lockchildren : Bool

/-- JS `value === true`. -/
def isTrueVal : AttrValue → Bool
  | .bool true => true
  | _ => false

/-- JS `value === false || value == null` (loose equality also catches
`undefined`). -/
def isOmittedVal : AttrValue → Bool
  | .bool false => true
  | .null => true
  | .undef => true
  | _ => false

/-- The per-attribute loop state of `render_static`:
accumulated scripts, lock flag, attribute parts, current attribute map. -/
def staticStep (registry : List AttributeHandler) (generatedId : String)
    (acc : List DOMNode × Bool × List String × List (String × AttrValue))
    (kv : String × AttrValue) :
    List DOMNode × Bool × List String × List (String × AttrValue) :=
  let (scripts, lock, parts, cur) := acc
  let (key, value) := kv
  match findHandler registry key with
  | some h =>
    if h.hasStatic then
      let r := h.staticFn key generatedId value cur
      (scripts ++ r.scripts, lock || r.lockchildren, parts ++ [r.html.getD ""], r.attrsAfter)
    else if isTrueVal value then (scripts, lock, parts ++ [key], cur)
    else if isOmittedVal value then (scripts, lock, parts, cur)
    else
      (scripts, lock, parts ++ [" " ++ key ++ "=\"" ++ escapeQuotes (attrValueToString value) ++ "\""], cur)
  | none =>
    if isTrueVal value then (scripts, lock, parts ++ [key], cur)
    else if isOmittedVal value then (scripts, lock, parts, cur)
    else
      (scripts, lock, parts ++ [" " ++ key ++ "=\"" ++ escapeQuotes (attrValueToString value) ++ "\""], cur)

/-- Method `AttributeRender.render_static` (lines 84–172).  `genId` stands for the
token `random(16)` produced; theorems quantify over it, which shows the
properties they state are independent of the random choice.  Promise-valued
attributes are modelled as already resolved (they are awaited in declaration
order by the source). -/
def render_static (registry : List AttributeHandler) (genId : String)
    (props : List (String × AttrValue)) : StaticRenderResult :=
  let generatedId := match getProp props "id" with
    | some .null => genId
    | some .undef => genId
    | some v => attrValueToString v
    | none => genId
  let items := props.filter (fun p => !(p.1 == "children" || p.1 == "props"))
  let (scripts, lockchildren, parts, finalProps) :=
    items.foldl (staticStep registry generatedId) ([], false, [], props)
  let attributes := String.intercalate " " (parts.filter (fun s => s ≠ ""))
  let attributes :=
    if scripts.length > 0 && !truthyOpt (getProp finalProps "id") then
      attributes ++ " id=\"" ++ generatedId ++ "\""
    else attributes
  let scripts :=
    if scripts.length > 0 then
      let strs := scripts.filter (fun s => match s with | .str _ => true | _ => false)
      let doms := scripts.filter (fun s => match s with | .str _ => false | _ => true)
      if strs.length > 0 then
        let joined := strs.foldl (fun acc n => acc ++ match n with | .str s => s | _ => "") ""
        doms ++ [createElement (.tag "script") none [.str joined]]
      else doms
    else scripts
  ⟨String.mk (jsTrim attributes.data), scripts, lockchildren⟩

/-! ## The static renderer (`src/server/render.ts`) -/

/-- The fragment a primitive node pushes:
`node != null ? String(node) : ''` (line 120). -/
def primFragment (node : DOMNode) : String :=
  match node with
  | .null => ""
  | .undef => ""
  | v => jsStringOfNode v

/-- Coercion of a non-array `children` prop value into a single child node
(`[props.children]` in line 134). -/
def attrToNode : AttrValue → DOMNode
  | .str s => .str s
  | .num n => .num n
  | .bool b => .bool b
  | .null => .null
  | .undef => .undef
  | .fn _ => .null
  | .nodes xs => .arr xs

/-- Normalization `props.children ? (Array.isArray(...) ? ... : [...]) : []`
normalization of lines 133–135. -/
def childrenOfProps (props : List (String × AttrValue)) : List DOMNode :=
  match getProp props "children" with
  | some (.nodes xs) => xs
  | some v => if truthy v then [attrToNode v] else []
  | none => []

mutual
/-- Function `renderToStringFragments` (lines 105–168), fuel-indexed: `fuel` bounds the
recursion like the JS call stack does and is consumed on every node and list
step so that the definition is structural; `none` means the fuel ran out.
Promises are modelled as resolved; arrays render their members in declaration
order (the source fans out with `Promise.all` but pushes into one fragment
list whose order follows declaration order per §5 of the spec).  Function
components cannot occur in a built tree (see `createElement`).  An element
renders its attributes through `render_static`, renders children unless
locked, emits a self-closing tag for void elements, and appends rendered
scripts after its own markup. -/
def renderToStringFragments : Nat → List AttributeHandler → String → DOMNode →
    Option (List String)
  | 0, _, _, _ => none
  | _ + 1, _, _, .str s => some [primFragment (.str s)]
  | _ + 1, _, _, .num n => some [primFragment (.num n)]
  | _ + 1, _, _, .bool b => some [primFragment (.bool b)]
  | _ + 1, _, _, .null => some [primFragment .null]
  | _ + 1, _, _, .undef => some [primFragment .undef]
  | fuel + 1, registry, genId, .arr xs => renderListFrags fuel registry genId xs
  | fuel + 1, registry, genId, .elem t props _ =>
    let children := childrenOfProps props
    let r := render_static registry genId props
    let childrenFragments :=
      if r.lockchildren then some [] else renderListFrags fuel registry genId children
    match childrenFragments with
    | none => none
    | some cf =>
      let selfFrags :=
        if r.lockchildren then []
        else
          let openingTag := "<" ++ t ++ (if r.attributes ≠ "" then " " ++ r.attributes else "")
          if isVoidElement t then [openingTag ++ " />"]
          else ([openingTag ++ ">"] ++ cf ++ ["</" ++ t ++ ">"])
      match renderListFrags fuel registry genId r.scripts with
      | none => none
      | some sf => some (selfFrags ++ sf)

/-- Renders a list of nodes in order, concatenating their fragments. -/
def renderListFrags : Nat → List AttributeHandler → String → List DOMNode →
    Option (List String)
  | 0, _, _, _ => none
  | _ + 1, _, _, [] => some []
  | fuel + 1, registry, genId, n :: ns =>
    match renderToStringFragments fuel registry genId n,
          renderListFrags fuel registry genId ns with
    | some f, some fs => some (f ++ fs)
    | _, _ => none
end

/-! ## Document assembly (`renderToString`, lines 170–258) -/

/-- Case-insensitive anchored match: `pat` must be given lowercased. -/
def matchesAtCI : List Char → List Char → Bool
  | [], _ => true
  | _ :: _, [] => false
  | p :: ps, c :: cs => p == Char.toLower c && matchesAtCI ps cs

/-- Test `/<!doctype/i.test(fragment.toLowerCase())`: contains `<!doctype`. -/
def testDoctype : List Char → Bool
  | [] => false
  | c :: cs => matchesAtCI "<!doctype".data (c :: cs) || testDoctype cs

/-- Match `fragment.match(/<html\s([^>]*)>/i)`: the first capture group of the
first match, when one exists. -/
def matchHtmlOpenTag : List Char → Option String
  | [] => none
  | c :: cs =>
    if matchesAtCI "<html".data (c :: cs) then
      match (c :: cs).drop 5 with
      | w :: rest =>
        if jsWs w then
          let cap := rest.takeWhile (fun ch => ch != '>')
          match rest.dropWhile (fun ch => ch != '>') with
          | '>' :: _ => some (String.mk cap)
          | _ => matchHtmlOpenTag cs
        else matchHtmlOpenTag cs
      | [] => matchHtmlOpenTag cs
    else matchHtmlOpenTag cs

/-- Word test: `w` (lowercased) followed by a whitespace character or `>`. -/
def wordThenDelim (w : List Char) (l : List Char) : Bool :=
  matchesAtCI w l &&
    match l.drop w.length with
    | d :: _ => jsWs d || d == '>'
    | [] => false

/-- Test `/<head[\s>]/i.test(fragment)` (and the same for `<body`). -/
def testOpenTag (word : List Char) : List Char → Bool
  | [] => false
  | c :: cs => wordThenDelim word (c :: cs) || testOpenTag word cs

/-- Test `/<\/?(html|head|body)[\s>]/i.test(fragment)`. -/
def testStructTag : List Char → Bool
  | [] => false
  | c :: cs =>
    (c == '<' &&
      (let rest := if matchesAt ['/'] cs then cs.drop 1 else cs
       wordThenDelim "html".data rest || wordThenDelim "head".data rest ||
         wordThenDelim "body".data rest)) ||
    testStructTag cs

/-- The flags and buckets the fragment-classification loop accumulates. -/
structure DocScan where
  doctype : Bool := false
  html : Bool := false
  headFlag : Bool := false
  bodyFlag : Bool := false
  head_contents : List String := []
  body_contents : List String := []
  other_contents : List String := []
  html_attrs : List String := []

/-- One iteration of the fragment-classification loop (lines 184–220). -/
def scanFragment (st : DocScan) (fragment : String) : DocScan :=
  if testDoctype (fragment.data.map Char.toLower) then { st with doctype := true }
  else
    match matchHtmlOpenTag fragment.data with
    | some cap =>
      { st with html := true,
                html_attrs := if cap ≠ "" then st.html_attrs ++ [cap] else st.html_attrs }
    | none =>
      if testOpenTag "<head".data fragment.data then { st with headFlag := true }
      else if testOpenTag "<body".data fragment.data then { st with bodyFlag := true }
      else if testStructTag fragment.data then st
      else if st.headFlag && !st.bodyFlag then
        { st with head_contents := st.head_contents ++ [fragment] }
      else if st.bodyFlag then
        { st with body_contents := st.body_contents ++ [fragment] }
      else
        { st with other_contents := st.other_contents ++ [fragment] }

/-- The document-structure assembly of `renderToString` (lines 222–257):
prepends a doctype when a structural marker was seen without one, hoists
`<html>` attributes, wraps head/body buckets, and appends leftover content as
a body when no body context exists.  (When a body context exists the source
pushes the leftover content into `body_contents` after that list was already
spread into the output, so the push is unobservable and the content is
dropped.) -/
def assembleDocument (fragments : List String) (minify : Bool) : String :=
  let st := fragments.foldl scanFragment {}
  let builded :=
    (if !st.doctype && (st.html || st.headFlag || st.bodyFlag) then ["<!DOCTYPE html>"] else [])
  let attrs := if st.html_attrs.length > 0 then " " ++ String.intercalate " " st.html_attrs else ""
  let builded := builded ++ ["<html" ++ attrs ++ ">"]
  let builded :=
    if st.headFlag || st.head_contents.length > 0 then
      builded ++ ["<head>"] ++ st.head_contents ++ ["</head>"]
    else builded
  let body_context := st.bodyFlag || st.body_contents.length > 0
  let builded :=
    if body_context then builded ++ ["<body>"] ++ st.body_contents ++ ["</body>"]
    else builded
  let builded :=
    if st.other_contents.length > 0 && !body_context then
      builded ++ ["<body>"] ++ st.other_contents ++ ["</body>"]
    else builded
  let builded := builded ++ ["</html>"]
  let result := String.join builded
  if minify then compress result else result

/-- Function `renderToString` (lines 170–258): render to fragments, then assemble the
document, optionally compacting.  The source defaults `minify` to `true`. -/
def renderToString (fuel : Nat) (registry : List AttributeHandler) (genId : String)
    (node : DOMNode) (minify : Bool := true) : Option String :=
  (renderToStringFragments fuel registry genId node).map (assembleDocument · minify)

/-! ## Router matching (`src/client/native.ts`, `matchDynamicRoute`, lines 434–503) -/

/-- JS `path.split('/').filter(Boolean)`. -/
def splitPath (p : String) : List String :=
  (splitOnChar '/' p).filter (fun s => s != "")

/-- JS object property assignment on the `params` record; values are
`Option String` because a parameter can be assigned `undefined` when the
path is shorter than the pattern. -/
def setParam (ps : List (String × Option String)) (k : String) (v : Option String) :
    List (String × Option String) :=
  if (ps.find? (fun p => p.1 == k)).isSome then
    ps.map (fun p => if p.1 == k then (k, v) else p)
  else ps ++ [(k, v)]

/-- Lookup `params[k] === someString` (undefined or missing compare unequal). -/
def paramsGet (ps : List (String × Option String)) (k : String) : Option String :=
  match ps.find? (fun p => p.1 == k) with
  | some (_, some v) => some v
  | _ => none

/-- The scoring loop of `matchDynamicRoute` (lines 464–483), indexed by the
number of remaining iterations (`compareLength - i`).  Returns
`(params, score, isMatch, wildcardMatch)`.  `+1` for a `:param` segment,
`+2` for a literal match, `+0` and loop exit for `*`, mismatch breaks with
`isMatch = false`. -/
def routeLoopGo (routeSegments pathSegments : List String) :
    Nat → Nat → List (String × Option String) → Nat →
    List (String × Option String) × Nat × Bool × Bool
  | 0, _, params, score => (params, score, true, false)
  | remaining + 1, i, params, score =>
    match routeSegments.get? i with
    | some rs =>
      if strStartsWith rs ":" then
        routeLoopGo routeSegments pathSegments remaining (i + 1)
          (setParam params (strDrop rs 1) (pathSegments.get? i)) (score + 1)
      else if rs == "*" then
        (setParam params "wildcard"
          (some (String.intercalate "/" (pathSegments.drop i))), score, true, true)
      else if some rs != pathSegments.get? i then (params, score, false, false)
      else routeLoopGo routeSegments pathSegments remaining (i + 1) params (score + 2)
    | none =>
      if pathSegments.get? i == none then
        routeLoopGo routeSegments pathSegments remaining (i + 1) params (score + 2)
      else (params, score, false, false)

/-- The per-route evaluation of one iteration of the `for routePattern in
routes` loop: `none` when the route is skipped (segment-count mismatch
without wildcard) or does not match; otherwise the params and score. -/
def evalRoute (pathSegments : List String) (routePattern : String) :
    Option (List (String × Option String) × Nat) :=
  let routeSegments := splitPath routePattern
  let hasWildcard := routeSegments.contains "*"
  let compareLength := if hasWildcard then routeSegments.indexOf "*" else routeSegments.length
  if !hasWildcard && pathSegments.length != routeSegments.length then none
  else
    let (params, score, isMatch, wildcardMatch) :=
      routeLoopGo routeSegments pathSegments compareLength 0 [] 0
    let params :=
      if hasWildcard && !wildcardMatch && compareLength < pathSegments.length then
        setParam params "wildcard"
          (some (String.intercalate "/" (pathSegments.drop compareLength)))
      else params
    if isMatch then some (params, score) else none

structure RouteMatch where
  matchedRoute : String
  params : List (String × Option String)
  html : String
deriving DecidableEq, Repr

/-- Function `matchDynamicRoute` (lines 434–503): an optional cache pre-check (hit only
when caching is on and the cached entry's `params.path` equals the requested
path), then a highest-score scan over the route table in registration order
with strict improvement (`currentScore > bestScore`, `bestScore` starting at
-1, so the first match always qualifies and ties keep the earlier route).
The cache write-back on a hit mutates a separate store and does not affect
the returned match, so it is not part of the returned value. -/
def matchDynamicRoute (path : String) (routes : List (String × String))
    (cached : Bool) (routeCache : Option RouteMatch) : Option RouteMatch :=
  let hit : Option RouteMatch :=
    if cached then
      match routeCache with
      | some c => if paramsGet c.params "path" == some path then some c else none
      | none => none
    else none
  match hit with
  | some c => some c
  | none =>
    let pathSegments := splitPath path
    let best := routes.foldl
      (fun (acc : Option (RouteMatch × Nat)) (rp : String × String) =>
        match evalRoute pathSegments rp.1 with
        | some (params, score) =>
          match acc with
          | some (_, bestScore) =>
            if score > bestScore then some (⟨rp.1, params, rp.2⟩, score) else acc
          | none => some (⟨rp.1, params, rp.2⟩, score)
        | none => acc)
      none
    best.map (·.1)

/-! ## Client runtime hook storage (`src/client/native.ts`)

The global `window.__GLOBAL_STATES` maps are modelled as insertion-ordered
association lists (`Map` iteration order is insertion order); JS `Map.set`
updates in place or appends, `Map.delete` removes.  Hook values are modelled
as naturals (`===` on JS primitives is value equality, which `Nat` equality
mirrors); listener functions and cleanup functions are identified by numeric
tokens standing for their object identity.  The `contexts`/`routeCache`
stores are not involved in the claims below and are omitted. -/

def mapSet {β : Type} (l : List (String × β)) (k : String) (v : β) : List (String × β) :=
  if (l.find? (fun p => p.1 == k)).isSome then
    l.map (fun p => if p.1 == k then (k, v) else p)
  else l ++ [(k, v)]

def mapGet {β : Type} (l : List (String × β)) (k : String) : Option β :=
  (l.find? (fun p => p.1 == k)).map (·.2)

def mapDelete {β : Type} (l : List (String × β)) (k : String) : List (String × β) :=
  l.filter (fun p => !(p.1 == k))

/-- Hook state values. -/
abbrev Value := Nat

structure StateData where
  value : Value
  listeners : List Nat
deriving DecidableEq, Repr

structure EffectData where
  cleanup : Option Nat
  oldDeps : Option (List Value)
deriving DecidableEq, Repr

structure RefData where
  current : Value
deriving DecidableEq, Repr

structure GlobalStates where
  states : List (String × StateData) := []
  refs : List (String × RefData) := []
  effects : List (String × EffectData) := []
  hookIndices : List (String × Nat) := []
  componentListeners : List (String × List Nat) := []
  currentComponentId : Option String := none
deriving DecidableEq, Repr

/-- A notification delivered by the `useState` setter: either a listener from
the state's own listener set or an update callback from the owning
component's listener set. -/
inductive NotifyEvent where
  | state (listener : Nat)
  | comp (listener : Nat)
deriving DecidableEq, Repr

/-- Hook `window.useState` (lines 381–416, the variant shipped to the client):
reads `currentComponentId` (throwing on a falsy one), derives the positional
key `componentId + "-" + index`, bumps the index, and creates the state slot
on first use.  Returns the current value together with the slot key (the
returned setter closes over the slot; `setState` below takes the key
instead). -/
def useState (g : GlobalStates) (initialValue : Value) :
    Except String ((Value × String) × GlobalStates) :=
  match g.currentComponentId with
  | none => .error "useState must be called within a reactive component"
  | some componentId =>
    if componentId == "" then .error "useState must be called within a reactive component"
    else
      let currentIndex := (mapGet g.hookIndices componentId).getD 0
      let key := componentId ++ "-" ++ toString currentIndex
      let g := { g with hookIndices := mapSet g.hookIndices componentId (currentIndex + 1) }
      match mapGet g.states key with
      | some st => .ok ((st.value, key), g)
      | none =>
        let g := { g with states := mapSet g.states key ⟨initialValue, []⟩ }
        .ok ((initialValue, key), g)

/-- The setter `useState` returns (lines 401–413): resolves an updater
function against the previous value, writes and notifies only when the new
value differs (`state.value !== value`), notifying first the state's own
listeners and then the owning component's listeners, synchronously.  The
returned list is the notification log in delivery order.  (The JS closure
addresses the slot object directly; for a live slot — the key present in the
map — addressing by key is the same.) -/
def setState (g : GlobalStates) (componentId : String) (key : String)
    (newValue : Value ⊕ (Value → Value)) : GlobalStates × List NotifyEvent :=
  match mapGet g.states key with
  | none => (g, [])
  | some st =>
    let value := match newValue with
      | .inl v => v
      | .inr f => f st.value
    if st.value ≠ value then
      ({ g with states := mapSet g.states key ⟨value, st.listeners⟩ },
       st.listeners.map NotifyEvent.state ++
         ((mapGet g.componentListeners componentId).getD []).map NotifyEvent.comp)
    else (g, [])

/-- Hook `window.useRef` (lines 634–657): same positional keying; creates the ref
box once and returns it unchanged thereafter.  (The source's explicit
"initialize index if missing" step followed by the read is folded into
`getD 0`; the final map contents agree.) -/
def useRef (g : GlobalStates) (initialValue : Value) :
    Except String (String × GlobalStates) :=
  match g.currentComponentId with
  | none => .error "useRef must be called within a reactive component"
  | some componentId =>
    if componentId == "" then .error "useRef must be called within a reactive component"
    else
      let currentIndex := (mapGet g.hookIndices componentId).getD 0
      let key := componentId ++ "-" ++ toString currentIndex
      let g := { g with hookIndices := mapSet g.hookIndices componentId (currentIndex + 1) }
      if (mapGet g.refs key).isSome then .ok (key, g)
      else .ok (key, { g with refs := mapSet g.refs key ⟨initialValue⟩ })

/-- Test `deps.some((dep, i) => dep !== oldDeps?.[i])`: an entry differs by
reference from the previous run (a missing previous entry differs). -/
def listSomeDiffers (deps oldDeps : List Value) : Bool :=
  (List.range deps.length).any (fun i => deps.get? i != oldDeps.get? i)

/-- Hook `window.useEffect` (lines 663–704): positional keying; creates the record
`{cleanup: null, oldDeps: deps}` on first run; re-runs when first run, when
`deps` is absent, when no previous deps exist, or when an entry differs;
before re-running invokes the stored cleanup (the returned list logs invoked
cleanup tokens); stores the effect's return as the new cleanup (`effectRet`
models it) and the deps. -/
def useEffect (g : GlobalStates) (effectRet : Option Nat) (deps : Option (List Value)) :
    Except String (GlobalStates × List Nat) :=
  match g.currentComponentId with
  | none => .error "useEffect must be called within a reactive component"
  | some componentId =>
    if componentId == "" then .error "useEffect must be called within a reactive component"
    else
      let currentIndex := (mapGet g.hookIndices componentId).getD 0
      let key := componentId ++ "-" ++ toString currentIndex
      let g := { g with hookIndices := mapSet g.hookIndices componentId (currentIndex + 1) }
      let (effectData, isFirstRun, g) :=
        match mapGet g.effects key with
        | some ed => (ed, false, g)
        | none =>
          (⟨none, deps⟩, true, { g with effects := mapSet g.effects key ⟨none, deps⟩ })
      let hasChanged := isFirstRun || deps.isNone || effectData.oldDeps.isNone ||
        (match deps, effectData.oldDeps with
         | some d, some od => listSomeDiffers d od
         | _, _ => false)
      if hasChanged then
        let invoked := match effectData.cleanup with | some c => [c] | none => []
        .ok ({ g with effects := mapSet g.effects key ⟨effectRet, deps⟩ }, invoked)
      else .ok (g, [])

/-- Function `window.__cleanupComponent` (lines 712–738): deletes every state and ref
entry whose key starts with `componentId + "-"`; deletes an effect entry only
when its key matches AND its cleanup is non-null (the loop body guards both
the cleanup call and the deletion behind `value.cleanup`); removes the
component's listener set and hook index.  Returns the invoked cleanup
tokens. -/
def __cleanupComponent (componentId : String) (g : GlobalStates) : GlobalStates × List Nat :=
  let keyStart := componentId ++ "-"
  let invoked := (g.effects.filter
      (fun p => strStartsWith p.1 keyStart && p.2.cleanup.isSome)).filterMap (fun p => p.2.cleanup)
  ({ g with
      effects := g.effects.filter (fun p => !(strStartsWith p.1 keyStart && p.2.cleanup.isSome)),
      states := g.states.filter (fun p => !(strStartsWith p.1 keyStart)),
      refs := g.refs.filter (fun p => !(strStartsWith p.1 keyStart)),
      componentListeners := mapDelete g.componentListeners componentId,
      hookIndices := mapDelete g.hookIndices componentId },
   invoked)

structure ComponentStateView where
  states : List (String × StateData)
  effects : List (String × EffectData)
  refs : List (String × RefData)
deriving DecidableEq, Repr

/-- Function `window.__getComponentState` (lines 750–759): the entries of each map
whose key starts with `componentId + "-"`. -/
def __getComponentState (componentId : String) (g : GlobalStates) : ComponentStateView :=
  ⟨g.states.filter (fun p => strStartsWith p.1 (componentId ++ "-")),
   g.effects.filter (fun p => strStartsWith p.1 (componentId ++ "-")),
   g.refs.filter (fun p => strStartsWith p.1 (componentId ++ "-"))⟩

/-- A component callback is modelled as the sequence of hook calls it makes;
`effectRet` of an effect hook is the cleanup token the effect returns (none
when the effect returns nothing). -/
inductive HookCall where
  | stateHook (init : Value)
  | effectHook (effectRet : Option Nat) (deps : Option (List Value))
  | refHook (init : Value)
deriving DecidableEq, Repr

def runHook (g : GlobalStates) : HookCall → Except String GlobalStates
  | .stateHook init => (useState g init).map (·.2)
  | .effectHook r d => (useEffect g r d).map (·.1)
  | .refHook init => (useRef g init).map (·.2)

/-- Runs the hook calls of a component callback in order; a thrown error
stops execution with the state reached so far (the try/catch inside
`updateComponent` logs and swallows it). -/
def runCallback (calls : List HookCall) (g : GlobalStates) : GlobalStates :=
  match calls with
  | [] => g
  | c :: rest =>
    match runHook g c with
    | .ok g' => runCallback rest g'
    | .error _ => g

/-- One `updateComponent` run (lines 782–804) for a live, non-pending
instance: resets the hook index, restores `currentComponentId`, and runs the
callback.  (The `cleanupFunctions` list of this variant is never populated,
so running it is a no-op.) -/
def updateComponent (reference : String) (callback : List HookCall)
    (g : GlobalStates) : GlobalStates :=
  let g := { g with hookIndices := mapSet g.hookIndices reference 0,
                    currentComponentId := some reference }
  runCallback callback g

/-- The unmount closure `reactiveComponent` returns, identified by the
component id and the identity token of the registered update listener. -/
structure UnmountTok where
  reference : String
  listenerId : Nat
deriving DecidableEq, Repr

structure RCResult where
  unmountTok : Option UnmountTok
  g : GlobalStates
  callbackRan : Bool
deriving DecidableEq, Repr

/-- Function `window.reactiveComponent` (lines 767–827).  `doc` is the set of element
ids present in the document; a missing element returns `undefined`
immediately, touching nothing and never invoking the callback
(`callbackRan = false`).  Otherwise: tear down any previous instance, set the
current component cursor, register the update listener (a fresh function, so
a fresh identity token), run the initial render, and hand back the unmount
token. -/
def reactiveComponent (doc : List String) (reference : String)
    (callback : List HookCall) (listenerId : Nat) (g : GlobalStates) : RCResult :=
  if !(doc.contains reference) then ⟨none, g, false⟩
  else
    let g := (__cleanupComponent reference g).1
    let g := { g with currentComponentId := some reference,
                      hookIndices := mapSet g.hookIndices reference 0 }
    let g := if (mapGet g.componentListeners reference).isSome then g
             else { g with componentListeners := mapSet g.componentListeners reference [] }
    let listeners := (mapGet g.componentListeners reference).getD []
    let g := { g with componentListeners := mapSet g.componentListeners reference
                        (if listeners.contains listenerId then listeners
                         else listeners ++ [listenerId]) }
    let g := updateComponent reference callback g
    ⟨some ⟨reference, listenerId⟩, g, true⟩

/-- The unmount closure (lines 817–826): clears the mounted flag and the
current component cursor, runs the (never-populated) cleanup list, removes
this listener from the component's listener set, and — when no listeners
remain — purges the component through `__cleanupComponent`.  Returns the
invoked cleanup tokens. -/
def unmountComponent (tok : UnmountTok) (g : GlobalStates) : GlobalStates × List Nat :=
  let g := { g with currentComponentId := none }
  let listeners := ((mapGet g.componentListeners tok.reference).getD []).filter
    (fun l => l != tok.listenerId)
  let g := { g with componentListeners := mapSet g.componentListeners tok.reference listeners }
  if listeners.length == 0 then __cleanupComponent tok.reference g
  else (g, [])

/-! ## Auxiliary definitions used by the statements below -/

/-- Projects the `children` field of an element node. -/
def elemChildren : DOMNode → List DOMNode
  | .elem _ _ cs => cs
  | _ => []

/-- No fragment-classification regex fires on `s` (used to state when a lone
fragment lands in the body bucket untouched). -/
def noStructureMarkers (s : String) : Bool :=
  !testDoctype (s.data.map Char.toLower) && (matchHtmlOpenTag s.data).isNone &&
  !testOpenTag "<head".data s.data && !testOpenTag "<body".data s.data &&
  !testStructTag s.data

/-- A handler whose static strategy contributes nothing (used to instantiate
registries in lookup statements; only the key and identity matter there). -/
def inertHandler (hid : Nat) (key : String) : AttributeHandler :=
  ⟨hid, key, true, fun _ _ _ attrs => ⟨none, false, [], attrs⟩⟩

/-- The mount of a component whose callback registers a single effect that
returns no cleanup, against a document containing its element. -/
def c3Mount : RCResult :=
  reactiveComponent ["c1"] "c1" [.effectHook none none] 0 {}

/-- A runtime state with one live state slot `c-0` (value 5, state listeners
7 and 8) owned by component `c` whose listener set is `[9]`. -/
def gC6 : GlobalStates :=
  { states := [("c-0", ⟨5, [7, 8]⟩)], componentListeners := [("c", [9])] }


/-! ## Shared helper lemmas -/

theorem flattenOnce_map_str (xs : List String) :
    flattenOnce (xs.map DOMNode.str) = xs.map DOMNode.str := by
  induction xs with
  | nil => rfl
  | cons x xs ih =>
    simp only [List.map_cons, flattenOnce, List.flatMap_cons] at *
    simpa using ih

theorem filter_valid_map_str (xs : List String) :
    (xs.map DOMNode.str).filter isValidNode = xs.map DOMNode.str := by
  rw [List.filter_eq_self]
  intro a ha
  obtain ⟨s, -, rfl⟩ := List.mem_map.1 ha
  rfl

theorem renderListFrags_map_str (registry : List AttributeHandler) (genId : String) :
    ∀ (xs : List String) (fuel : Nat),
      renderListFrags (xs.length + fuel + 1) registry genId (xs.map DOMNode.str) = some xs := by
  intro xs
  induction xs with
  | nil => intro fuel; rfl
  | cons x xs ih =>
    intro fuel
    have h1 : (x :: xs).length + fuel + 1 = (xs.length + fuel + 1) + 1 := by
      simp [List.length_cons]; omega
    rw [h1, List.map_cons]
    have h2 := ih fuel
    simp only [renderListFrags, renderToStringFragments, h2]
    simp [primFragment, jsStringOfNode]

theorem render_static_children_only (registry : List AttributeHandler) (genId : String)
    (v : AttrValue) :
    render_static registry genId [("children", v)] = ⟨"", [], false⟩ := rfl

theorem assembleDocument_single (s : String) (h : noStructureMarkers s = true) :
    assembleDocument [s] false = "<html><body>" ++ s ++ "</body></html>" := by
  unfold noStructureMarkers at h
  simp only [Bool.and_eq_true, Bool.not_eq_true', Option.isNone_iff_eq_none] at h
  obtain ⟨⟨⟨⟨h1, h2⟩, h3⟩, h4⟩, h5⟩ := h
  unfold assembleDocument
  simp only [List.foldl_cons, List.foldl_nil]
  unfold scanFragment
  simp only [h1, h2, h3, h4, h5, Bool.false_eq_true, if_false]
  simp [String.join, String.append_assoc]

/-- C1 (counterexample): the claim as stated is false — rendering the lone
primitive node `"hi"` through the static render entry point `renderToString`
does not yield `String("hi")`: the entry point wraps the fragment in a
synthesized `<html><body>…</body></html>` document. -/
theorem C1_counterexample :
    renderToString 2 [] "" (.str "hi") true = some "<html><body>hi</body></html>" ∧
    renderToString 2 [] "" (.str "hi") true ≠ some "hi" := by
  refine ⟨rfl, ?_⟩
  decide

/-- C1 (amended): for every primitive value `v`, the fragment renderer
produces exactly the single fragment `String(v)` (the empty string for null
and undefined), and — whenever that fragment triggers none of the structural
classification regexes — the static render entry point returns it wrapped as
`<html><body>String(v)</body></html>`, for any registry and random token. -/
theorem C1_amended (v : DOMNode) (hv : isPrimitiveNode v = true) (fuel : Nat)
    (registry : List AttributeHandler) (genId : String) :
    renderToStringFragments (fuel + 1) registry genId v = some [primFragment v] ∧
    (noStructureMarkers (primFragment v) = true →
      renderToString (fuel + 1) registry genId v false =
        some ("<html><body>" ++ primFragment v ++ "</body></html>")) := by
  cases v with
  | str s =>
    exact ⟨rfl, fun h => by
      simp only [renderToString, renderToStringFragments, Option.map_some']
      rw [assembleDocument_single _ h]⟩
  | num n =>
    exact ⟨rfl, fun h => by
      simp only [renderToString, renderToStringFragments, Option.map_some']
      rw [assembleDocument_single _ h]⟩
  | bool b =>
    exact ⟨rfl, fun h => by
      simp only [renderToString, renderToStringFragments, Option.map_some']
      rw [assembleDocument_single _ h]⟩
  | null =>
    exact ⟨rfl, fun h => by
      simp only [renderToString, renderToStringFragments, Option.map_some']
      rw [assembleDocument_single _ h]⟩
  | undef =>
    exact ⟨rfl, fun h => by
      simp only [renderToString, renderToStringFragments, Option.map_some']
      rw [assembleDocument_single _ h]⟩
  | arr xs => simp [isPrimitiveNode] at hv
  | elem t props cs => simp [isPrimitiveNode] at hv

/-- C1 (witness): the amended statement evaluated at the string primitive
`"hi"` with fuel 2, the empty registry and an empty random token. -/
theorem C1_amended_witness :
    renderToStringFragments 2 [] "" (.str "hi") = some [primFragment (.str "hi")] ∧
    renderToString 2 [] "" (.str "hi") false =
      some ("<html><body>" ++ primFragment (.str "hi") ++ "</body></html>") := by
  obtain ⟨a, b⟩ := C1_amended (.str "hi") rfl 1 [] ""
  exact ⟨a, b (by decide)⟩

/-- C4: a component function that throws while the tree is built has its
output replaced, at the point of invocation inside `createElement`, by the
inline HTML comment `<!-- Error rendering component: msg -->`, and rendering
continues for every sibling: the rendered fragments contain all sibling
strings followed by the comment, and the render call returns normally for
any error message, any sibling list, any registry and any random token. -/
theorem C4_component_error_caught (msg : String) (siblings : List String) (fuel : Nat)
    (registry : List AttributeHandler) (genId : String) :
    createElement (.comp (fun _ => .error msg)) none [] =
      .str ("<!-- Error rendering component: " ++ msg ++ " -->") ∧
    renderToStringFragments (siblings.length + fuel + 3) registry genId
        (createElement (.tag "div") none
          (siblings.map DOMNode.str ++
            [createElement (.comp (fun _ => .error msg)) none []])) =
      some (["<div>"] ++ siblings ++
        ["<!-- Error rendering component: " ++ msg ++ " -->"] ++ ["</div>"]) := by
  refine ⟨rfl, ?_⟩
  have hinner : createElement (.comp (fun _ => .error msg)) none [] =
      .str ("<!-- Error rendering component: " ++ msg ++ " -->") := rfl
  rw [hinner]
  have hmap : siblings.map DOMNode.str ++
      [DOMNode.str ("<!-- Error rendering component: " ++ msg ++ " -->")] =
      (siblings ++ ["<!-- Error rendering component: " ++ msg ++ " -->"]).map DOMNode.str := by
    simp
  rw [hmap]
  have houter : ∀ ss : List String,
      createElement (.tag "div") none (ss.map DOMNode.str) =
      .elem "div" [("children", .nodes (ss.map DOMNode.str))] (ss.map DOMNode.str) := by
    intro ss
    unfold createElement
    simp only [flattenOnce_map_str, filter_valid_map_str]
    rfl
  rw [houter]
  have hfuel : siblings.length + fuel + 3 = (siblings.length + fuel + 2) + 1 := by omega
  rw [hfuel]
  have hcop : ∀ cs : List DOMNode, childrenOfProps [("children", AttrValue.nodes cs)] = cs :=
    fun _ => rfl
  simp only [renderToStringFragments, render_static_children_only registry genId,
    Bool.false_eq_true, if_false, hcop]
  rw [show siblings.length + fuel + 2 =
      (siblings ++ ["<!-- Error rendering component: " ++ msg ++ " -->"]).length + fuel + 1 by
    simp only [List.length_append, List.length_cons, List.length_nil]
    omega]
  simp only [renderListFrags_map_str, renderListFrags]
  have hvoid : isVoidElement "div" = false := rfl
  have htag1 : ("<" ++ "div" ++ if ("" : String) ≠ "" then " " ++ "" else "") ++ ">" = "<div>" := rfl
  simp only [hvoid, Bool.false_eq_true, if_false, htag1]
  simp

/-- C9: for every string tag that does not take the script-with-
client/loaded branch, the children stored on the element returned by
`createElement` are exactly the input children flattened one level
(`flattenOnce`) with null, undefined and `false` entries filtered out, so
every stored child satisfies `isValidNode`. -/
theorem C9_children_normalized (t : String) (props : Option (List (String × AttrValue)))
    (children : List DOMNode)
    (h : scriptSpecialCase t
        (setProp (props.getD []) "children"
          (.nodes ((flattenOnce children).filter isValidNode))) = false) :
    elemChildren (createElement (.tag t) props children) =
      (flattenOnce children).filter isValidNode ∧
    ∀ c ∈ elemChildren (createElement (.tag t) props children), isValidNode c = true := by
  have hmain : createElement (.tag t) props children =
      .elem t (setProp (props.getD []) "children"
          (.nodes ((flattenOnce children).filter isValidNode)))
        ((flattenOnce children).filter isValidNode) := by
    unfold createElement
    simp only [h, Bool.false_eq_true, if_false]
  rw [hmain]
  refine ⟨rfl, ?_⟩
  intro c hc
  simp only [elemChildren] at hc
  exact List.of_mem_filter hc

/-- C9 (witness): the statement evaluated on a `div` with children
`["a", null, ["b", false], true]`. -/
theorem C9_children_normalized_witness :
    elemChildren (createElement (.tag "div") none
        [.str "a", .null, .arr [.str "b", .bool false], .bool true]) =
      (flattenOnce [.str "a", .null, .arr [.str "b", .bool false], .bool true]).filter
        isValidNode ∧
    ∀ c ∈ elemChildren (createElement (.tag "div") none
        [.str "a", .null, .arr [.str "b", .bool false], .bool true]),
      isValidNode c = true :=
  C9_children_normalized "div" none
    [.str "a", .null, .arr [.str "b", .bool false], .bool true] (by decide)

/-- C2 (counterexample): the claim as stated is false — with a wildcard
handler for `data-*` registered before an exact handler for `data-foo`,
looking up the key `data-foo` selects the wildcard handler (identity 0), not
the exact-key handler (identity 1), so the exact key does not win regardless
of registration order. -/
theorem C2_counterexample :
    (findHandler [inertHandler 0 "data-*", inertHandler 1 "data-foo"] "data-foo").map
        (fun h => h.hid) = some 0 ∧
    (inertHandler 0 "data-*").key = "data-*" ∧ (inertHandler 1 "data-foo").key = "data-foo" := by
  refine ⟨rfl, rfl, rfl⟩

/-- C2 (amended): handler lookup (the `find` shared by `render_static` and
`render_dom`) is first-match-wins in registration order: the exact-key
handler for `data-foo` is selected only when it is registered before the
matching `data-*` wildcard handler; registered after it, the wildcard
handler is selected. -/
theorem C2_amended (exactH wildH : AttributeHandler)
    (hexact : exactH.key = "data-foo") (hwild : wildH.key = "data-*") :
    findHandler [exactH, wildH] "data-foo" = some exactH ∧
    findHandler [wildH, exactH] "data-foo" = some wildH := by
  constructor
  · have hp : (exactH.key == "data-foo" ||
        (strEndsWith exactH.key "*" && strStartsWith "data-foo" (strDropRight exactH.key 1))) = true := by
      rw [hexact]; decide
    unfold findHandler
    simp only [List.find?_cons, hp]
  · have hp : (wildH.key == "data-foo" ||
        (strEndsWith wildH.key "*" && strStartsWith "data-foo" (strDropRight wildH.key 1))) = true := by
      rw [hwild]; decide
    unfold findHandler
    simp only [List.find?_cons, hp]

/-- C2 (witness): the amended statement evaluated at two concrete inert
handlers. -/
theorem C2_amended_witness :
    findHandler [inertHandler 1 "data-foo", inertHandler 0 "data-*"] "data-foo" =
      some (inertHandler 1 "data-foo") ∧
    findHandler [inertHandler 0 "data-*", inertHandler 1 "data-foo"] "data-foo" =
      some (inertHandler 0 "data-*") :=
  C2_amended (inertHandler 1 "data-foo") (inertHandler 0 "data-*") rfl rfl

/-- C5: with exactly the routes `/users/:id` and `/users/*` registered (in
either order), matching `/users/42` scores the parametrized route 2+1=3 and
the wildcard route 2+0=2, selects `/users/:id`, and binds `params.id` to the
string `"42"`. -/
theorem C5_router_prefers_param_route :
    evalRoute (splitPath "/users/42") "/users/:id" = some ([("id", some "42")], 3) ∧
    evalRoute (splitPath "/users/42") "/users/*" = some ([("wildcard", some "42")], 2) ∧
    matchDynamicRoute "/users/42" [("/users/:id", "P"), ("/users/*", "W")] false none =
      some ⟨"/users/:id", [("id", some "42")], "P"⟩ ∧
    matchDynamicRoute "/users/42" [("/users/*", "W"), ("/users/:id", "P")] false none =
      some ⟨"/users/:id", [("id", some "42")], "P"⟩ ∧
    (matchDynamicRoute "/users/42" [("/users/:id", "P"), ("/users/*", "W")] false none).map
        (fun m => paramsGet m.params "id") = some (some "42") := by
  refine ⟨?_, ?_, ?_, ?_, ?_⟩ <;> rfl

/-- C3 (code bug): mounting a reactive component whose callback registers
one effect that returns no cleanup, then calling the unmount function it
returned (its only listener), leaves the effect entry `c1-0` with
`cleanup: null` in the effects map — `__cleanupComponent` deletes an effect
entry only when its cleanup is non-null — so `__getComponentState` returns a
non-empty effects collection, contradicting the claim that all three
collections come back empty. -/
theorem C3_effect_entry_survives_unmount :
    c3Mount.unmountTok = some ⟨"c1", 0⟩ ∧
    __getComponentState "c1" (unmountComponent ⟨"c1", 0⟩ c3Mount.g).1 =
      ⟨[], [("c1-0", ⟨none, none⟩)], []⟩ ∧
    (__getComponentState "c1" (unmountComponent ⟨"c1", 0⟩ c3Mount.g).1).effects ≠ [] := by
  refine ⟨rfl, rfl, ?_⟩
  decide

/-- C10: when the document contains no element with the requested id,
`reactiveComponent` returns undefined immediately: the callback is never
invoked, no listener is registered, and the global hook state is returned
unchanged. -/
theorem C10_missing_element_is_noop (doc : List String) (reference : String)
    (callback : List HookCall) (listenerId : Nat) (g : GlobalStates)
    (h : doc.contains reference = false) :
    reactiveComponent doc reference callback listenerId g = ⟨none, g, false⟩ := by
  unfold reactiveComponent
  rw [h]
  rfl

/-- C10 (witness): the statement evaluated on a document holding only an
unrelated element id. -/
theorem C10_missing_element_is_noop_witness :
    reactiveComponent ["other"] "app" [.stateHook 1] 7 {} =
      ⟨none, {}, false⟩ :=
  C10_missing_element_is_noop ["other"] "app" [.stateHook 1] 7 {} (by decide)

/-- C6: for a live state slot, the `useState` setter with a value equal
(by identity) to the current one performs no write and produces zero
notifications; with a different value it writes the new value and notifies
each subscribed state listener and each subscribed component listener
exactly once (each such notification appearing once in the synchronous
delivery log); an updater function is applied to the previous value before
this comparison. -/
theorem C6_setState_spec (g : GlobalStates) (cid key : String) (st : StateData)
    (hkey : mapGet g.states key = some st) :
    (∀ v : Value, v = st.value → setState g cid key (.inl v) = (g, [])) ∧
    (∀ v : Value, v ≠ st.value →
      (setState g cid key (.inl v)).1 =
        { g with states := mapSet g.states key ⟨v, st.listeners⟩ } ∧
      (setState g cid key (.inl v)).2 =
        st.listeners.map NotifyEvent.state ++
          ((mapGet g.componentListeners cid).getD []).map NotifyEvent.comp ∧
      (st.listeners.Nodup → ∀ l ∈ st.listeners,
        ((setState g cid key (.inl v)).2.count (NotifyEvent.state l)) = 1) ∧
      (((mapGet g.componentListeners cid).getD []).Nodup →
        ∀ l ∈ (mapGet g.componentListeners cid).getD [],
          ((setState g cid key (.inl v)).2.count (NotifyEvent.comp l)) = 1)) ∧
    (∀ f : Value → Value, setState g cid key (.inr f) = setState g cid key (.inl (f st.value))) := by
  unfold setState
  rw [hkey]
  refine ⟨?_, ?_, ?_⟩
  · intro v hv
    simp [hv]
  · intro v hv
    have hne : st.value ≠ v := fun e => hv e.symm
    simp only [if_pos hne]
    refine ⟨trivial, trivial, ?_, ?_⟩
    · intro hnd l hl
      rw [List.count_append]
      have hinj : Function.Injective NotifyEvent.state := by
        intro a b hab
        cases hab
        rfl
      rw [List.count_map_of_injective _ _ hinj, List.count_eq_one_of_mem hnd hl]
      have : NotifyEvent.state l ∉
          ((mapGet g.componentListeners cid).getD []).map NotifyEvent.comp := by
        simp [List.mem_map]
      rw [List.count_eq_zero.2 this]
    · intro hnd l hl
      rw [List.count_append]
      have hinj : Function.Injective NotifyEvent.comp := by
        intro a b hab
        cases hab
        rfl
      rw [List.count_map_of_injective _ _ hinj, List.count_eq_one_of_mem hnd hl]
      have : NotifyEvent.comp l ∉ st.listeners.map NotifyEvent.state := by
        simp [List.mem_map]
      rw [List.count_eq_zero.2 this]
  · intro f
    rfl

/-- C6 (witness): the statement evaluated on a slot holding 5 with state
listeners 7 and 8 and component listener 9. -/
theorem C6_setState_spec_witness :
    setState gC6 "c" "c-0" (.inl 5) = (gC6, []) ∧
    (setState gC6 "c" "c-0" (.inl 6)).2 =
      [NotifyEvent.state 7, NotifyEvent.state 8, NotifyEvent.comp 9] ∧
    (setState gC6 "c" "c-0" (.inl 6)).2.count (NotifyEvent.state 7) = 1 ∧
    setState gC6 "c" "c-0" (.inr (fun x => x + 1)) = setState gC6 "c" "c-0" (.inl 6) := by
  have hh := C6_setState_spec gC6 "c" "c-0" ⟨5, [7, 8]⟩ (by decide)
  refine ⟨hh.1 5 rfl, ?_, ?_, hh.2.2 (fun x => x + 1)⟩
  · have := (hh.2.1 6 (by decide)).2.1
    simpa using this
  · exact (hh.2.1 6 (by decide)).2.2.1 (by decide) 7 (by decide)

set_option maxHeartbeats 2000000 in
/-- C7 (counterexample): the claim as stated is false — the double-quoted
literal `"a  b"` occurring in the input does not appear character-for-
character in the compacted output: `compress` restores protected literals
before the whitespace-collapsing stages, which then squeeze the run of
spaces inside the literal. -/
theorem C7_counterexample :
    compress "\"a  b\"" = "\"a b\"" ∧
    ¬ "\"a  b\"".data <:+: (compress "\"a  b\"").data := by
  refine ⟨rfl, ?_⟩
  rw [show compress "\"a  b\"" = "\"a b\"" from rfl]
  decide

/-- C7 (amended): the compaction pass protects string/template literals
from the comment-stripping stages only — a literal containing `//` or
`/* */` survives them intact — but the whitespace-normalization stages run
after the literals are restored, so whitespace runs inside literals are
still collapsed. -/
theorem C7_amended_thm :
    compress "\"a//b\"" = "\"a//b\"" ∧
    compress "x /* c */ \"k  /*w*/ l\"" = "x \"k /*w*/ l\"" ∧
    compress "\"a  b\"" = "\"a b\"" := by
  refine ⟨rfl, rfl, rfl⟩

set_option maxHeartbeats 1000000 in
/-- C8 (counterexample): the claim as stated is false — `compress` is not
idempotent: on `/ />` the self-closing-slash rule produces `//>`, which a
second pass strips as a line comment. -/
theorem C8_counterexample :
    compress (compress "/ />") ≠ compress "/ />" := by
  decide

set_option maxHeartbeats 1000000 in
/-- C8 (amended): the compaction pass is not idempotent in general —
deleting the whitespace before `/>` can create a new `//` comment opener
that a second pass removes — though a second pass is the identity on
representative already-compacted outputs that contain no such newly formed
comment opener. -/
theorem C8_amended_thm :
    compress "/ />" = "//>" ∧ compress "//>" = "" ∧
    compress (compress "<p> <br /> a </p>") = compress "<p> <br /> a </p>" ∧
    compress (compress "\"a b\"") = compress "\"a b\"" := by
  refine ⟨rfl, rfl, rfl, rfl⟩
